import Mathlib

/-!
Verification of the resilient Circle.so API-fetch client
(`src/lib/api/circle.ts`) and its cache layer (`lib/cache-manager.ts`).

The TypeScript code is shallowly embedded: pure helpers become Lean
functions over `Nat`/`String`; the effectful fetch loop becomes a pure
function over an *oracle* `Nat → AttemptOutcome` that supplies the outcome
of each physical network attempt; JavaScript strings are modelled as Lean
`String` with the JS operations (`toLowerCase`, `includes`, `trim`)
implemented over the underlying character lists so that they evaluate in
the kernel.  JS-falsy optional values (`undefined`, `null`, `""`, `0`) are
modelled as `none`.
-/

namespace Circle

/-- JS `hay.includes(needle)`: substring containment. -/
def jsIncludes (hay needle : String) : Bool :=
  decide (needle.data <:+: hay.data)

/-- JS `s.toLowerCase()`, at the character level. -/
def lowerData (s : String) : List Char :=
  s.data.map Char.toLower

/-- The error taxonomy, `CircleApiError` from `types/circle.ts`. -/
inductive CircleApiError where
  | CLOUDFLARE_BLOCKED
  | INVALID_CREDENTIALS
  | RATE_LIMITED
  | NETWORK_ERROR
  | INVALID_RESPONSE
  | TIMEOUT
  | UNKNOWN_ERROR
deriving DecidableEq, Repr

/-- The five challenge markers of `isCloudflareBlocked` (circle.ts:141-147). -/
def cloudflareIndicators : List String :=
  ["checking your browser", "cloudflare", "ray id",
   "please wait while we check", "security check"]

/-- `isCloudflareBlocked` (circle.ts:140-151): lower-case the body and look
for any challenge marker as a substring. -/
def isCloudflareBlocked (text : String) : Bool :=
  cloudflareIndicators.any (fun indicator => decide (indicator.data <:+: lowerData text))

/-- `determineErrorType` (circle.ts:156-163). -/
def determineErrorType (status : Nat) (contentType responseText : String) : CircleApiError :=
  if status = 401 ∨ status = 403 then .INVALID_CREDENTIALS
  else if status = 429 then .RATE_LIMITED
  else if status = 0 ∨ 500 ≤ status then .NETWORK_ERROR
  else if isCloudflareBlocked responseText then .CLOUDFLARE_BLOCKED
  else if ¬ (jsIncludes contentType "application/json" = true) then .INVALID_RESPONSE
  else .UNKNOWN_ERROR

/-- The classifier exactly as claim C1 words it: the same rule order, but
with only the four challenge markers the claim lists. -/
def determineErrorTypeClaim (status : Nat) (contentType responseText : String) : CircleApiError :=
  if status = 401 ∨ status = 403 then .INVALID_CREDENTIALS
  else if status = 429 then .RATE_LIMITED
  else if status = 0 ∨ 500 ≤ status then .NETWORK_ERROR
  else if ["checking your browser", "cloudflare", "ray id", "security check"].any
      (fun indicator => decide (indicator.data <:+: lowerData responseText)) then
    .CLOUDFLARE_BLOCKED
  else if ¬ (jsIncludes contentType "application/json" = true) then .INVALID_RESPONSE
  else .UNKNOWN_ERROR

/-- The classifier as the amended claim words it: first matching rule in the
fixed order, with the complete five-marker challenge list. -/
def determineErrorTypeSpec (status : Nat) (contentType responseText : String) : CircleApiError :=
  if status = 401 ∨ status = 403 then .INVALID_CREDENTIALS
  else if status = 429 then .RATE_LIMITED
  else if status = 0 ∨ 500 ≤ status then .NETWORK_ERROR
  else if ["checking your browser", "cloudflare", "ray id",
      "please wait while we check", "security check"].any
      (fun indicator => decide (indicator.data <:+: lowerData responseText)) then
    .CLOUDFLARE_BLOCKED
  else if ¬ (jsIncludes contentType "application/json" = true) then .INVALID_RESPONSE
  else .UNKNOWN_ERROR

/-- C1 counterexample: the body `"please wait while we check"` matches the
fifth challenge marker of `isCloudflareBlocked`, which claim C1's
four-marker rule list omits, so on (200, "application/json", that body) the
code yields CLOUDFLARE_BLOCKED where the claim's rules yield UNKNOWN. -/
theorem determineErrorType_fifth_marker_counterexample :
    determineErrorType 200 "application/json" "please wait while we check" =
      .CLOUDFLARE_BLOCKED
    ∧ determineErrorTypeClaim 200 "application/json" "please wait while we check" =
      .UNKNOWN_ERROR := by
  constructor <;> decide

/-- C1 (amended): the error classifier is pure, total and deterministic, and
agrees on every input triple with the first-matching-rule specification whose
challenge-marker list also contains "please wait while we check". -/
theorem determineErrorType_matches_spec :
    ∀ (status : Nat) (contentType responseText : String),
      determineErrorType status contentType responseText =
        determineErrorTypeSpec status contentType responseText := by
  intro status contentType responseText
  rfl

/-! ## Retrying fetcher (`fetchFromEndpoint`, circle.ts:168-264)

One physical attempt is either an HTTP response (status, content-type,
body text, and whether the body would `JSON.parse`) or a rejected `fetch`
promise (network failure, or an abort from the per-attempt timeout or the
caller's cancellation signal). -/

inductive AttemptOutcome where
  | response (status : Nat) (contentType bodyText : String) (parses : Bool)
  | thrownFetch
deriving DecidableEq, Repr

/-- `response.ok`: status in the 2xx range. -/
def respOk (status : Nat) : Bool :=
  decide (200 ≤ status) && decide (status ≤ 299)

/-- `API_CONFIG.retryDelays` (circle.ts:14). -/
def retryDelays : List Nat := [1000, 2000, 4000]

/-- `API_CONFIG.retryDelays[attempt - 1] || 4000` (circle.ts:179); the
configured entries are nonzero, so JS `||` coincides with `getD`. -/
def retryDelay (attempt : Nat) : Nat :=
  retryDelays.getD (attempt - 1) 4000

/-- The delay slept before a given 0-based attempt: none before the first. -/
def delayFor (attempt : Nat) : List Nat :=
  if attempt = 0 then [] else [retryDelay attempt]

/-- How `fetchFromEndpoint` ends: a returned `{ success: true, data }`, a
returned `{ success: false, error }`, or a `CircleApiException` thrown out
of the function (the network-error rethrow at circle.ts:251 and the
unreachable tail at circle.ts:263). -/
inductive FetchResult where
  | ok (body : String)
  | err (e : CircleApiError)
  | thrown (e : CircleApiError)
deriving DecidableEq, Repr

/-- An execution trace of `fetchFromEndpoint`: final result, number of
physical attempts performed, and the sleeps performed between attempts. -/
structure FetchTrace where
  result : FetchResult
  attempts : Nat
  delays : List Nat
deriving DecidableEq, Repr

/-- How the loop body (circle.ts:183-258) disposes of one attempt outcome:
`some r` means the loop ends now with `r`; `none` means it falls through to
the next iteration.  `isLast` is `attempt === retries`.
  * a rejected fetch is swallowed and retried, except on the final attempt
    where a NETWORK_ERROR `CircleApiException` is thrown out (ts:249-258);
  * a 2xx JSON response succeeds if the body parses; otherwise the
    INVALID_RESPONSE exception (ts:209) is caught and returned at once;
  * other responses are classified; INVALID_CREDENTIALS and
    CLOUDFLARE_BLOCKED are returned at once (ts:223-231), anything else is
    returned only on the final attempt (ts:234-242). -/
def attemptTerminal (o : AttemptOutcome) (isLast : Bool) : Option FetchResult :=
  match o with
  | .thrownFetch => if isLast then some (.thrown .NETWORK_ERROR) else none
  | .response status ct body parses =>
    if respOk status && jsIncludes ct "application/json" then
      if parses then some (.ok body) else some (.err .INVALID_RESPONSE)
    else
      let et := determineErrorType status ct body
      if et = .INVALID_CREDENTIALS ∨ et = .CLOUDFLARE_BLOCKED then some (.err et)
      else if isLast then some (.err et) else none

/-- The retry loop (circle.ts:175-260), one call per remaining iteration.
`attempt` is the 0-based loop counter; `remaining` is `retries + 1 - attempt`,
so `remaining = 1` means `attempt = retries`.  The `remaining = 0` base case
is the unreachable tail at circle.ts:263. -/
def fetchGo (oracle : Nat → AttemptOutcome) (attempt : Nat) : Nat → FetchTrace
  | 0 => ⟨.thrown .UNKNOWN_ERROR, 0, []⟩
  | remaining + 1 =>
    match attemptTerminal (oracle attempt) (decide (remaining = 0)) with
    | some r => ⟨r, 1, delayFor attempt⟩
    | none =>
      let t := fetchGo oracle (attempt + 1) remaining
      ⟨t.result, t.attempts + 1, delayFor attempt ++ t.delays⟩

/-- `fetchFromEndpoint` (circle.ts:168-264) over an attempt oracle. -/
def fetchFromEndpoint (oracle : Nat → AttemptOutcome) (retries : Nat := 3) : FetchTrace :=
  fetchGo oracle 0 (retries + 1)

/-- An attempt outcome on which the loop proceeds to the next attempt
(when one is left): a rejected fetch, or an HTTP response that is neither
a 2xx-JSON success nor classified fatal. -/
def stepContinues : AttemptOutcome → Bool
  | .thrownFetch => true
  | .response status ct body _ =>
    !(respOk status && jsIncludes ct "application/json") &&
      !(determineErrorType status ct body = .INVALID_CREDENTIALS ∨
        determineErrorType status ct body = .CLOUDFLARE_BLOCKED : Bool)

/-- An attempt outcome that the loop turns into an immediate success:
a 2xx response with JSON content type whose body parses. -/
def attemptSucceeds : AttemptOutcome → Bool
  | .response status ct _ parses => respOk status && jsIncludes ct "application/json" && parses
  | .thrownFetch => false

/-- The body carried by a successful attempt outcome. -/
def bodyOf : AttemptOutcome → String
  | .response _ _ body _ => body
  | .thrownFetch => ""

/-- The classification the loop's error path assigns to a response. -/
def classifyOf : AttemptOutcome → CircleApiError
  | .response status ct body _ => determineErrorType status ct body
  | .thrownFetch => .UNKNOWN_ERROR

/-- A response classified as a transient error: it reaches the classifier
(not a 2xx-JSON success path) and is classified RATE_LIMITED,
NETWORK_ERROR or INVALID_RESPONSE. -/
def transientErrorResponse : AttemptOutcome → Bool
  | .thrownFetch => false
  | .response status ct body _ =>
    !(respOk status && jsIncludes ct "application/json") &&
      (determineErrorType status ct body = .RATE_LIMITED ∨
       determineErrorType status ct body = .NETWORK_ERROR ∨
       determineErrorType status ct body = .INVALID_RESPONSE : Bool)

theorem attemptTerminal_of_stepContinues {o : AttemptOutcome}
    (h : stepContinues o = true) : attemptTerminal o false = none := by
  cases o with
  | thrownFetch => rfl
  | response status ct body parses =>
    simp only [stepContinues, Bool.and_eq_true, Bool.not_eq_true',
      decide_eq_true_eq] at h
    have h2 := of_decide_eq_false h.2
    simp [attemptTerminal, h.1, h2]

theorem attemptTerminal_of_succeeds {o : AttemptOutcome}
    (h : attemptSucceeds o = true) :
    ∀ isLast, attemptTerminal o isLast = some (.ok (bodyOf o)) := by
  cases o with
  | thrownFetch => simp [attemptSucceeds] at h
  | response status ct body parses =>
    simp only [attemptSucceeds, Bool.and_eq_true] at h
    intro isLast
    simp [attemptTerminal, bodyOf, h.1.1, h.1.2, h.2]

theorem attemptTerminal_of_fatal {status : Nat} {ct body : String} {parses : Bool}
    (h1 : (respOk status && jsIncludes ct "application/json") = false)
    (h2 : determineErrorType status ct body = .INVALID_CREDENTIALS ∨
      determineErrorType status ct body = .CLOUDFLARE_BLOCKED) :
    ∀ isLast, attemptTerminal (.response status ct body parses) isLast =
      some (.err (determineErrorType status ct body)) := by
  intro isLast
  simp [attemptTerminal, h1, h2]

theorem attemptTerminal_of_transient {o : AttemptOutcome}
    (h : transientErrorResponse o = true) :
    attemptTerminal o false = none
    ∧ attemptTerminal o true = some (.err (classifyOf o)) := by
  cases o with
  | thrownFetch => simp [transientErrorResponse] at h
  | response status ct body parses =>
    simp only [transientErrorResponse, Bool.and_eq_true, Bool.not_eq_true',
      decide_eq_true_eq] at h
    have hfatal : ¬ (determineErrorType status ct body = .INVALID_CREDENTIALS ∨
        determineErrorType status ct body = .CLOUDFLARE_BLOCKED) := by
      rcases h.2 with h2 | h2 | h2 <;> rw [h2] <;> simp
    simp [attemptTerminal, classifyOf, h.1, hfatal]

theorem determineErrorType_ne_timeout :
    ∀ (status : Nat) (ct body : String), determineErrorType status ct body ≠ .TIMEOUT := by
  intro status ct body
  unfold determineErrorType
  repeat' split
  all_goals simp

theorem attemptTerminal_ne_timeout {o : AttemptOutcome} {isLast : Bool} {r : FetchResult}
    (h : attemptTerminal o isLast = some r) :
    r ≠ .err .TIMEOUT ∧ r ≠ .thrown .TIMEOUT := by
  cases o with
  | thrownFetch =>
    simp only [attemptTerminal] at h
    split at h
    · obtain rfl : FetchResult.thrown .NETWORK_ERROR = r := Option.some.inj h
      simp
    · exact absurd h (by simp)
  | response status ct body parses =>
    simp only [attemptTerminal] at h
    split at h
    · split at h <;>
        · obtain rfl := Option.some.inj h
          simp
    · split at h
      · obtain rfl := Option.some.inj h
        simpa using determineErrorType_ne_timeout status ct body
      · split at h
        · obtain rfl := Option.some.inj h
          simpa using determineErrorType_ne_timeout status ct body
        · exact absurd h (by simp)

/-- The loop performs at most `remaining` further attempts. -/
theorem fetchGo_attempts_le (oracle : Nat → AttemptOutcome) :
    ∀ (remaining attempt : Nat), (fetchGo oracle attempt remaining).attempts ≤ remaining := by
  intro remaining
  induction remaining with
  | zero => intro attempt; simp [fetchGo]
  | succ n ih =>
    intro attempt
    unfold fetchGo
    cases h : attemptTerminal (oracle attempt) (decide (n = 0)) with
    | some r => simp
    | none => simpa using ih (attempt + 1)

/-- The loop performs at least one attempt when any iteration is left. -/
theorem fetchGo_attempts_pos (oracle : Nat → AttemptOutcome) (remaining attempt : Nat)
    (h : 1 ≤ remaining) : 1 ≤ (fetchGo oracle attempt remaining).attempts := by
  obtain ⟨n, rfl⟩ : ∃ n, remaining = n + 1 := ⟨remaining - 1, by omega⟩
  unfold fetchGo
  cases attemptTerminal (oracle attempt) (decide (n = 0)) with
  | some r => simp
  | none => simp

/-- The sleeps performed are exactly one `delayFor` per attempt made. -/
theorem fetchGo_delays (oracle : Nat → AttemptOutcome) :
    ∀ (remaining attempt : Nat),
      (fetchGo oracle attempt remaining).delays =
        (List.range' attempt (fetchGo oracle attempt remaining).attempts).flatMap delayFor := by
  intro remaining
  induction remaining with
  | zero => intro attempt; simp [fetchGo]
  | succ n ih =>
    intro attempt
    unfold fetchGo
    cases h : attemptTerminal (oracle attempt) (decide (n = 0)) with
    | some r => simp [List.range']
    | none => simp [List.range', ih (attempt + 1)]

theorem range'_bind_delayFor :
    ∀ (n s : Nat), 1 ≤ s →
      (List.range' s n).flatMap delayFor = (List.range' s n).map retryDelay := by
  intro n
  induction n with
  | zero => intro s _; simp
  | succ m ih =>
    intro s hs
    have hds : delayFor s = [retryDelay s] := by
      simp [delayFor]
      omega
    simp [List.range', hds, ih (s + 1) (by omega)]

/-- A run of `N` continuing attempts followed by a terminating one ends with
that attempt's result after exactly `N + 1` attempts. -/
theorem fetchGo_run_terminal (oracle : Nat → AttemptOutcome) :
    ∀ (N attempt remaining : Nat) (r : FetchResult),
      N + 1 ≤ remaining →
      (∀ i, i < N → stepContinues (oracle (attempt + i)) = true) →
      (∀ isLast, attemptTerminal (oracle (attempt + N)) isLast = some r) →
      (fetchGo oracle attempt remaining).result = r
      ∧ (fetchGo oracle attempt remaining).attempts = N + 1 := by
  intro N
  induction N with
  | zero =>
    intro attempt remaining r h1 _ hterm
    obtain ⟨m, rfl⟩ : ∃ m, remaining = m + 1 := ⟨remaining - 1, by omega⟩
    unfold fetchGo
    rw [show attempt + 0 = attempt from rfl] at hterm
    rw [hterm (decide (m = 0))]
    simp
  | succ n ih =>
    intro attempt remaining r h1 hcont hterm
    obtain ⟨m, rfl⟩ : ∃ m, remaining = m + 1 := ⟨remaining - 1, by omega⟩
    have hm : ¬ (m = 0) := by omega
    have hc : stepContinues (oracle attempt) = true := by
      simpa using hcont 0 (by omega)
    unfold fetchGo
    rw [show (decide (m = 0)) = false by simp [hm], attemptTerminal_of_stepContinues hc]
    have hrec := ih (attempt + 1) m r (by omega)
      (fun i hi => by
        have := hcont (i + 1) (by omega)
        simpa [Nat.add_assoc, Nat.add_comm 1 i] using this)
      (by
        have := hterm
        simpa [Nat.add_assoc, Nat.add_comm 1 n] using this)
    simp [hrec.1, hrec.2]

/-- A run in which every remaining attempt is a transient error response
exhausts the budget and returns the final attempt's classification. -/
theorem fetchGo_transient_run (oracle : Nat → AttemptOutcome) :
    ∀ (remaining attempt : Nat),
      1 ≤ remaining →
      (∀ i, i < remaining → transientErrorResponse (oracle (attempt + i)) = true) →
      (fetchGo oracle attempt remaining).result =
        .err (classifyOf (oracle (attempt + (remaining - 1))))
      ∧ (fetchGo oracle attempt remaining).attempts = remaining := by
  intro remaining
  induction remaining with
  | zero => omega
  | succ n ih =>
    intro attempt _ htrans
    unfold fetchGo
    cases n with
    | zero =>
      rw [show (decide ((0 : Nat) = 0)) = true by simp,
        (attemptTerminal_of_transient (by simpa using htrans 0 (by omega))).2]
      simp
    | succ m =>
      rw [show (decide (m + 1 = 0)) = false by simp,
        (attemptTerminal_of_transient (by simpa using htrans 0 (by omega))).1]
      have hrec := ih (attempt + 1) (by omega)
        (fun i hi => by
          have := htrans (i + 1) (by omega)
          simpa [Nat.add_assoc, Nat.add_comm 1 i] using this)
      refine ⟨?_, by simp [hrec.2]⟩
      show (fetchGo oracle (attempt + 1) (m + 1)).result = _
      rw [hrec.1]
      congr 3
      omega

/-- No branch of the loop ever produces a TIMEOUT error. -/
theorem fetchGo_no_timeout (oracle : Nat → AttemptOutcome) :
    ∀ (remaining attempt : Nat),
      (fetchGo oracle attempt remaining).result ≠ .err .TIMEOUT
      ∧ (fetchGo oracle attempt remaining).result ≠ .thrown .TIMEOUT := by
  intro remaining
  induction remaining with
  | zero => intro attempt; simp [fetchGo]
  | succ n ih =>
    intro attempt
    unfold fetchGo
    cases h : attemptTerminal (oracle attempt) (decide (n = 0)) with
    | some r => simpa using attemptTerminal_ne_timeout h
    | none => simpa using ih (attempt + 1)

/-- A run in which every attempt's fetch rejects (timeout abort, caller
abort, or network failure) exhausts the budget and throws NETWORK_ERROR. -/
theorem fetchGo_all_thrown_run (oracle : Nat → AttemptOutcome)
    (hor : ∀ i, oracle i = .thrownFetch) :
    ∀ (remaining attempt : Nat), 1 ≤ remaining →
      (fetchGo oracle attempt remaining).result = .thrown .NETWORK_ERROR
      ∧ (fetchGo oracle attempt remaining).attempts = remaining := by
  intro remaining
  induction remaining with
  | zero => omega
  | succ n ih =>
    intro attempt _
    unfold fetchGo
    cases n with
    | zero => rw [hor attempt]; simp [attemptTerminal]
    | succ m =>
      rw [hor attempt,
        show attemptTerminal .thrownFetch (decide (m + 1 = 0)) = none by
          simp [attemptTerminal]]
      have hrec := ih (attempt + 1) (by omega)
      simp [hrec.1, hrec.2]

/-- C2: the retrying fetcher performs at most `maxRetries + 1` attempts; the
sleeps before the 2nd, 3rd, 4th, ... attempts follow the fixed schedule
1000ms, 2000ms, 4000ms, with the last configured value (4000ms) reused for
all further attempts; and against an upstream that fails `N` times with a
retryable outcome and then succeeds, with `N < maxRetries`, the call
succeeds after exactly `N + 1` attempts. -/
theorem fetchFromEndpoint_retry_schedule :
    ∀ (oracle : Nat → AttemptOutcome) (retries : Nat),
      (fetchFromEndpoint oracle retries).attempts ≤ retries + 1
      ∧ (fetchFromEndpoint oracle retries).delays =
          (List.range' 1 ((fetchFromEndpoint oracle retries).attempts - 1)).map retryDelay
      ∧ retryDelay 1 = 1000 ∧ retryDelay 2 = 2000 ∧ retryDelay 3 = 4000
      ∧ (∀ n, 4 ≤ n → retryDelay n = 4000)
      ∧ (∀ N, N < retries →
          (∀ i, i < N → stepContinues (oracle i) = true) →
          attemptSucceeds (oracle N) = true →
          (fetchFromEndpoint oracle retries).result = .ok (bodyOf (oracle N))
          ∧ (fetchFromEndpoint oracle retries).attempts = N + 1) := by
  intro oracle retries
  refine ⟨fetchGo_attempts_le oracle (retries + 1) 0, ?_, rfl, rfl, rfl, ?_, ?_⟩
  · have hd := fetchGo_delays oracle (retries + 1) 0
    have hpos := fetchGo_attempts_pos oracle (retries + 1) 0 (by omega)
    obtain ⟨a, ha⟩ : ∃ a, (fetchGo oracle 0 (retries + 1)).attempts = a + 1 :=
      ⟨(fetchGo oracle 0 (retries + 1)).attempts - 1, by omega⟩
    calc (fetchFromEndpoint oracle retries).delays
        = (List.range' 0 (a + 1)).flatMap delayFor := by rw [← ha]; exact hd
      _ = (List.range' 1 a).flatMap delayFor := by simp [List.range', delayFor]
      _ = (List.range' 1 a).map retryDelay := range'_bind_delayFor a 1 (by omega)
      _ = (List.range' 1 ((fetchFromEndpoint oracle retries).attempts - 1)).map
            retryDelay := by
          show _ = (List.range' 1 ((fetchGo oracle 0 (retries + 1)).attempts - 1)).map _
          rw [ha]
          simp
  · intro n hn
    rw [retryDelay, retryDelays, List.getD_eq_default]
    simp
    omega
  · intro N hN hcont hsucc
    exact fetchGo_run_terminal oracle N 0 (retries + 1) (.ok (bodyOf (oracle N)))
      (by omega)
      (fun i hi => by simpa using hcont i hi)
      (fun isLast => by
        have := attemptTerminal_of_succeeds hsucc isLast
        simpa using this)

/-- C2 witness: two retryable 500s then a parsing 2xx JSON response, with
`maxRetries = 3`: success after exactly 3 attempts. -/
theorem fetchFromEndpoint_retry_schedule_witness :
    (fetchFromEndpoint (fun i => if i < 2 then .response 500 "" "" false
      else .response 200 "application/json" "ok" true) 3).result = .ok "ok"
    ∧ (fetchFromEndpoint (fun i => if i < 2 then .response 500 "" "" false
      else .response 200 "application/json" "ok" true) 3).attempts = 3 := by
  have h := (fetchFromEndpoint_retry_schedule
    (fun i => if i < 2 then .response 500 "" "" false
      else .response 200 "application/json" "ok" true) 3).2.2.2.2.2.2
  obtain ⟨h1, h2⟩ := h 2 (by omega)
    (fun i hi => by rw [if_pos hi]; decide)
    (by decide)
  exact ⟨by rw [h1]; decide, h2⟩

/-- C3: an attempt whose HTTP response is classified INVALID_CREDENTIALS or
CLOUDFLARE_BLOCKED ends the call immediately with that error: if the first
`k` attempts continue the loop and attempt `k` is such a response, the
fetcher returns that error after exactly `k + 1` attempts. -/
theorem fetchFromEndpoint_fatal_stops :
    ∀ (oracle : Nat → AttemptOutcome) (retries k status : Nat) (ct body : String)
      (parses : Bool),
      k ≤ retries →
      (∀ i, i < k → stepContinues (oracle i) = true) →
      oracle k = .response status ct body parses →
      (respOk status && jsIncludes ct "application/json") = false →
      (determineErrorType status ct body = .INVALID_CREDENTIALS ∨
        determineErrorType status ct body = .CLOUDFLARE_BLOCKED) →
      (fetchFromEndpoint oracle retries).result = .err (determineErrorType status ct body)
      ∧ (fetchFromEndpoint oracle retries).attempts = k + 1 := by
  intro oracle retries k status ct body parses hk hcont hk2 hok hfatal
  exact fetchGo_run_terminal oracle k 0 (retries + 1)
    (.err (determineErrorType status ct body))
    (by omega)
    (fun i hi => by simpa using hcont i hi)
    (fun isLast => by
      rw [show (0 : Nat) + k = k from by omega, hk2]
      exact @attemptTerminal_of_fatal status ct body parses hok hfatal isLast)

/-- C3 witness: a 401 on the first attempt gives INVALID_CREDENTIALS after
exactly one attempt. -/
theorem fetchFromEndpoint_fatal_stops_witness :
    (fetchFromEndpoint (fun _ => .response 401 "" "" false) 3).result =
      .err .INVALID_CREDENTIALS
    ∧ (fetchFromEndpoint (fun _ => .response 401 "" "" false) 3).attempts = 1 := by
  obtain ⟨h1, h2⟩ := fetchFromEndpoint_fatal_stops (fun _ => .response 401 "" "" false)
    3 0 401 "" "" false (by omega)
    (fun i hi => absurd hi (Nat.not_lt_zero i))
    rfl (by decide) (Or.inl (by decide))
  exact ⟨by rw [h1]; decide, h2⟩

/-- C4 counterexample: a 2xx "application/json" response whose body fails to
parse is returned as INVALID_RESPONSE after a single attempt, with the whole
retry budget (`maxRetries = 3`, so 4 attempts) left unused — the claim says
every INVALID_RESPONSE, including this one, is retried until exhaustion. -/
theorem fetchFromEndpoint_parse_failure_counterexample :
    fetchFromEndpoint (fun _ => .response 200 "application/json" "not json" false) 3 =
      ⟨.err .INVALID_RESPONSE, 1, []⟩
    ∧ (1 : Nat) ≠ 3 + 1 := by
  exact ⟨by decide, by omega⟩

/-- C4 (amended): errors classified from non-success responses as
RATE_LIMITED, NETWORK_ERROR or INVALID_RESPONSE are retried until the
attempt budget is exhausted and the last observed classification is then
returned; but an INVALID_RESPONSE raised by a 2xx JSON response whose body
fails to parse is returned immediately, without any retry. -/
theorem fetchFromEndpoint_transient_retry :
    ∀ (oracle : Nat → AttemptOutcome) (retries : Nat),
      ((∀ i, i ≤ retries → transientErrorResponse (oracle i) = true) →
        (fetchFromEndpoint oracle retries).result = .err (classifyOf (oracle retries))
        ∧ (fetchFromEndpoint oracle retries).attempts = retries + 1)
      ∧ (∀ (status : Nat) (ct body : String),
          (respOk status && jsIncludes ct "application/json") = true →
          oracle 0 = .response status ct body false →
          (fetchFromEndpoint oracle retries).result = .err .INVALID_RESPONSE
          ∧ (fetchFromEndpoint oracle retries).attempts = 1) := by
  intro oracle retries
  constructor
  · intro htrans
    have h := fetchGo_transient_run oracle (retries + 1) 0 (by omega)
      (fun i hi => by simpa using htrans i (by omega))
    simpa using h
  · intro status ct body hok h0
    have hterm : ∀ isLast, attemptTerminal (oracle 0) isLast =
        some (.err .INVALID_RESPONSE) := by
      intro isLast
      rw [h0]
      simp [attemptTerminal, hok]
    show (fetchGo oracle 0 (retries + 1)).result = _ ∧
      (fetchGo oracle 0 (retries + 1)).attempts = 1
    unfold fetchGo
    rw [hterm (decide (retries = 0))]
    exact ⟨rfl, rfl⟩

/-- C4 amended witness: constant 429s with `maxRetries = 3` give
RATE_LIMITED after all 4 attempts; and a non-parsing 2xx JSON response gives
INVALID_RESPONSE after exactly 1 attempt. -/
theorem fetchFromEndpoint_transient_retry_witness :
    ((fetchFromEndpoint (fun _ => .response 429 "" "" false) 3).result =
        .err .RATE_LIMITED
      ∧ (fetchFromEndpoint (fun _ => .response 429 "" "" false) 3).attempts = 4)
    ∧ ((fetchFromEndpoint (fun _ => .response 200 "application/json" "x" false) 3).result =
        .err .INVALID_RESPONSE
      ∧ (fetchFromEndpoint
          (fun _ => .response 200 "application/json" "x" false) 3).attempts = 1) := by
  constructor
  · obtain ⟨h1, h2⟩ := (fetchFromEndpoint_transient_retry
      (fun _ => .response 429 "" "" false) 3).1 (fun i _ => by decide)
    exact ⟨by rw [h1]; decide, h2⟩
  · exact (fetchFromEndpoint_transient_retry
      (fun _ => .response 200 "application/json" "x" false) 3).2
      200 "application/json" "x" (by decide) rfl

/-- C10: no execution of the retrying fetcher ever produces a TIMEOUT error:
the classifier has no rule yielding TIMEOUT, the fetcher neither returns nor
throws one, and a run all of whose attempts are aborted (as the per-attempt
timeout does) surfaces a thrown NETWORK_ERROR after the retries are
exhausted. -/
theorem fetchFromEndpoint_never_timeout :
    ∀ (oracle : Nat → AttemptOutcome) (retries : Nat),
      (∀ (status : Nat) (ct body : String),
        determineErrorType status ct body ≠ .TIMEOUT)
      ∧ (fetchFromEndpoint oracle retries).result ≠ .err .TIMEOUT
      ∧ (fetchFromEndpoint oracle retries).result ≠ .thrown .TIMEOUT
      ∧ ((∀ i, oracle i = .thrownFetch) →
          (fetchFromEndpoint oracle retries).result = .thrown .NETWORK_ERROR
          ∧ (fetchFromEndpoint oracle retries).attempts = retries + 1) := by
  intro oracle retries
  refine ⟨determineErrorType_ne_timeout,
    (fetchGo_no_timeout oracle (retries + 1) 0).1,
    (fetchGo_no_timeout oracle (retries + 1) 0).2, ?_⟩
  intro hor
  exact fetchGo_all_thrown_run oracle hor (retries + 1) 0 (by omega)

/-- C10 witness: every attempt's fetch aborted, `maxRetries = 3`: the call
throws NETWORK_ERROR after 4 attempts, and no TIMEOUT is produced. -/
theorem fetchFromEndpoint_never_timeout_witness :
    (fetchFromEndpoint (fun _ => .thrownFetch) 3).result = .thrown .NETWORK_ERROR
    ∧ (fetchFromEndpoint (fun _ => .thrownFetch) 3).attempts = 4 := by
  exact (fetchFromEndpoint_never_timeout (fun _ => .thrownFetch) 3).2.2.2
    (fun _ => rfl)

/-! ## Paginator (`fetchAllPages`, circle.ts:269-347) -/

/-- A parsed paginated response (`CircleApiResponse`, circle.ts:30-38),
with the record array possibly under any of four field names. -/
structure CircleApiResponse (α : Type) where
  records : Option (List α) := none
  members : Option (List α) := none
  community_members : Option (List α) := none
  data : Option (List α) := none
  has_next_page : Bool := false
  page_count : Option Nat := none
deriving DecidableEq, Repr

/-- `x.records || x.members || x.community_members || x.data || []`
(circle.ts:275, 307): JS `||` picks the first non-undefined value (an empty
array is truthy, so a present-but-empty `records` wins). -/
def extractRecords {α : Type} (d : CircleApiResponse α) : List α :=
  (d.records <|> d.members <|> d.community_members <|> d.data).getD []

/-- A fetched page as the pagination loop sees it: `none` stands both for a
failure result from `fetchFromEndpoint` and for an exception it threw — the
loop handles the two identically (circle.ts:323-342).  A page "yields
nothing" when it failed, threw, or carried zero records. -/
def pageYieldsNothing {α : Type} (r : Option (CircleApiResponse α)) : Bool :=
  match r with
  | none => true
  | some d => decide ((extractRecords d).length = 0)

/-- The page loop (circle.ts:299-343): `remaining` pages left to try,
`page` the next page number, `consec` the `consecutiveEmptyPages` counter,
`acc` the records accumulated so far. -/
def fetchAllPagesGo {α : Type} (pageFetch : Nat → Option (CircleApiResponse α)) :
    Nat → Nat → List α → Nat → List α
  | 0, _, acc, _ => acc
  | remaining + 1, page, acc, consec =>
    match pageFetch page with
    | some d =>
      let pageRecords := extractRecords d
      if pageRecords.length = 0 then
        if 3 ≤ consec + 1 then acc
        else fetchAllPagesGo pageFetch remaining (page + 1) acc (consec + 1)
      else fetchAllPagesGo pageFetch remaining (page + 1) (acc ++ pageRecords) 0
    | none =>
      if 3 ≤ consec + 1 then acc
      else fetchAllPagesGo pageFetch remaining (page + 1) acc (consec + 1)

/-- `initialData.has_next_page && initialData.page_count &&
initialData.page_count > 1` (circle.ts:289): an absent or zero
`page_count` is falsy. -/
def shouldPaginate {α : Type} (d : CircleApiResponse α) : Bool :=
  d.has_next_page &&
    (match d.page_count with
     | some n => decide (1 < n)
     | none => false)

/-- `Math.min(initialData.page_count, 20)` (circle.ts:294). -/
def maxPagesToFetch {α : Type} (d : CircleApiResponse α) : Nat :=
  min (d.page_count.getD 0) 20

/-- `fetchAllPages` (circle.ts:269-347) over a page oracle giving the
outcome of the `fetchFromEndpoint` call for each `page=N` URL; pages 2
through `min(page_count, 20)` are attempted. -/
def fetchAllPages {α : Type} (initialData : CircleApiResponse α)
    (pageFetch : Nat → Option (CircleApiResponse α)) : List α :=
  let allRecords := extractRecords initialData
  if shouldPaginate initialData then
    fetchAllPagesGo pageFetch (maxPagesToFetch initialData - 1) 2 allRecords 0
  else allRecords

/-- A page that yields nothing bumps the counter and moves on when the
counter stays below 3. -/
theorem fetchAllPagesGo_step_nothing {α : Type}
    (pageFetch : Nat → Option (CircleApiResponse α))
    (remaining page consec : Nat) (acc : List α)
    (h : pageYieldsNothing (pageFetch page) = true) (hc : consec + 1 < 3) :
    fetchAllPagesGo pageFetch (remaining + 1) page acc consec =
      fetchAllPagesGo pageFetch remaining (page + 1) acc (consec + 1) := by
  simp only [fetchAllPagesGo]
  cases hf : pageFetch page with
  | none => simp [show ¬ (3 ≤ consec + 1) from by omega]
  | some d =>
    have hlen : (extractRecords d).length = 0 := by
      simpa [pageYieldsNothing, hf] using h
    simp [hlen, show ¬ (3 ≤ consec + 1) from by omega]

/-- A page that yields nothing stops the loop once the counter reaches 3,
keeping the accumulated records. -/
theorem fetchAllPagesGo_step_stop {α : Type}
    (pageFetch : Nat → Option (CircleApiResponse α))
    (remaining page consec : Nat) (acc : List α)
    (h : pageYieldsNothing (pageFetch page) = true) (hc : 3 ≤ consec + 1) :
    fetchAllPagesGo pageFetch (remaining + 1) page acc consec = acc := by
  simp only [fetchAllPagesGo]
  cases hf : pageFetch page with
  | none => simp [hc]
  | some d =>
    have hlen : (extractRecords d).length = 0 := by
      simpa [pageYieldsNothing, hf] using h
    simp [hlen, hc]

/-- The loop only ever appends to the accumulator. -/
theorem fetchAllPagesGo_prefix {α : Type}
    (pageFetch : Nat → Option (CircleApiResponse α)) :
    ∀ (remaining page consec : Nat) (acc : List α),
      acc <+: fetchAllPagesGo pageFetch remaining page acc consec := by
  intro remaining
  induction remaining with
  | zero => intro page consec acc; simp [fetchAllPagesGo]
  | succ n ih =>
    intro page consec acc
    simp only [fetchAllPagesGo]
    cases pageFetch page with
    | none =>
      show acc <+: if 3 <= consec + 1 then acc
        else fetchAllPagesGo pageFetch n (page + 1) acc (consec + 1)
      by_cases hc : 3 <= consec + 1
      · rw [if_pos hc]
      · rw [if_neg hc]
        exact ih (page + 1) (consec + 1) acc
    | some d =>
      show acc <+: if (extractRecords d).length = 0 then
          (if 3 <= consec + 1 then acc
            else fetchAllPagesGo pageFetch n (page + 1) acc (consec + 1))
        else fetchAllPagesGo pageFetch n (page + 1) (acc ++ extractRecords d) 0
      by_cases hl : (extractRecords d).length = 0
      · rw [if_pos hl]
        by_cases hc : 3 <= consec + 1
        · rw [if_pos hc]
        · rw [if_neg hc]
          exact ih (page + 1) (consec + 1) acc
      · rw [if_neg hl]
        exact (List.prefix_append acc (extractRecords d)).trans
          (ih (page + 1) 0 (acc ++ extractRecords d))

/-- The loop's result depends only on the pages it may consult. -/
theorem fetchAllPagesGo_congr {α : Type}
    (pageFetch pageFetch2 : Nat → Option (CircleApiResponse α)) :
    ∀ (remaining page consec : Nat) (acc : List α),
      (∀ i, i < remaining → pageFetch (page + i) = pageFetch2 (page + i)) →
      fetchAllPagesGo pageFetch remaining page acc consec =
        fetchAllPagesGo pageFetch2 remaining page acc consec := by
  intro remaining
  induction remaining with
  | zero => intro page consec acc _; simp [fetchAllPagesGo]
  | succ n ih =>
    intro page consec acc hagree
    have h0 : pageFetch page = pageFetch2 page := by simpa using hagree 0 (by omega)
    have hrest : ∀ i, i < n → pageFetch (page + 1 + i) = pageFetch2 (page + 1 + i) := by
      intro i hi
      have := hagree (i + 1) (by omega)
      simpa [Nat.add_assoc, Nat.add_comm 1 i] using this
    simp only [fetchAllPagesGo, h0]
    cases pageFetch2 page with
    | none =>
      show (if 3 <= consec + 1 then acc
          else fetchAllPagesGo pageFetch n (page + 1) acc (consec + 1)) =
        (if 3 <= consec + 1 then acc
          else fetchAllPagesGo pageFetch2 n (page + 1) acc (consec + 1))
      by_cases hc : 3 <= consec + 1
      · rw [if_pos hc, if_pos hc]
      · rw [if_neg hc, if_neg hc]
        exact ih (page + 1) (consec + 1) acc hrest
    | some d =>
      show (if (extractRecords d).length = 0 then
            (if 3 <= consec + 1 then acc
              else fetchAllPagesGo pageFetch n (page + 1) acc (consec + 1))
          else fetchAllPagesGo pageFetch n (page + 1) (acc ++ extractRecords d) 0) =
        (if (extractRecords d).length = 0 then
            (if 3 <= consec + 1 then acc
              else fetchAllPagesGo pageFetch2 n (page + 1) acc (consec + 1))
          else fetchAllPagesGo pageFetch2 n (page + 1) (acc ++ extractRecords d) 0)
      by_cases hl : (extractRecords d).length = 0
      · rw [if_pos hl, if_pos hl]
        by_cases hc : 3 <= consec + 1
        · rw [if_pos hc, if_pos hc]
        · rw [if_neg hc, if_neg hc]
          exact ih (page + 1) (consec + 1) acc hrest
      · rw [if_neg hl, if_neg hl]
        exact ih (page + 1) 0 (acc ++ extractRecords d) hrest

/-- C6: the paginator fetches additional pages only when `has_next_page`
holds and `page_count > 1`; it consults only page numbers 2 through
`min(page_count, 20)`; a page that fails or yields zero records bumps a
consecutive-miss counter and pagination continues, and once three
consecutive pages miss the loop stops, keeping all records accumulated so
far; and the paginator always returns a list extending the initial
records without raising. -/
theorem fetchAllPages_policy {α : Type} :
    ∀ (initialData : CircleApiResponse α)
      (pageFetch pageFetch2 : Nat → Option (CircleApiResponse α)),
      (shouldPaginate initialData = false →
        fetchAllPages initialData pageFetch = extractRecords initialData)
      ∧ ((∀ p, 2 ≤ p → p ≤ maxPagesToFetch initialData → pageFetch p = pageFetch2 p) →
          fetchAllPages initialData pageFetch = fetchAllPages initialData pageFetch2)
      ∧ (∀ (remaining page consec : Nat) (acc : List α),
          pageYieldsNothing (pageFetch page) = true → consec + 1 < 3 →
          fetchAllPagesGo pageFetch (remaining + 1) page acc consec =
            fetchAllPagesGo pageFetch remaining (page + 1) acc (consec + 1))
      ∧ (∀ (remaining page : Nat) (acc : List α), 3 ≤ remaining →
          pageYieldsNothing (pageFetch page) = true →
          pageYieldsNothing (pageFetch (page + 1)) = true →
          pageYieldsNothing (pageFetch (page + 2)) = true →
          fetchAllPagesGo pageFetch remaining page acc 0 = acc)
      ∧ extractRecords initialData <+: fetchAllPages initialData pageFetch := by
  intro initialData pageFetch pageFetch2
  refine ⟨?_, ?_, ?_, ?_, ?_⟩
  · intro h
    simp [fetchAllPages, h]
  · intro hagree
    unfold fetchAllPages
    cases hsp : shouldPaginate initialData with
    | false => simp
    | true =>
      have hmax : 2 ≤ maxPagesToFetch initialData := by
        simp only [shouldPaginate, Bool.and_eq_true] at hsp
        obtain ⟨-, h2⟩ := hsp
        cases hpc : initialData.page_count with
        | none => rw [hpc] at h2; simp at h2
        | some n =>
          rw [hpc] at h2
          simp only [decide_eq_true_eq] at h2
          simp [maxPagesToFetch, hpc]
          omega
      simp only [if_pos rfl]
      exact fetchAllPagesGo_congr pageFetch pageFetch2
        (maxPagesToFetch initialData - 1) 2 0 (extractRecords initialData)
        (fun i hi => hagree (2 + i) (by omega) (by omega))
  · intro remaining page consec acc h hc
    exact fetchAllPagesGo_step_nothing pageFetch remaining page consec acc h hc
  · intro remaining page acc hr h0 h1 h2
    obtain ⟨m, rfl⟩ : ∃ m, remaining = m + 3 := ⟨remaining - 3, by omega⟩
    rw [show m + 3 = (m + 2) + 1 from rfl,
      fetchAllPagesGo_step_nothing pageFetch (m + 2) page 0 acc h0 (by omega),
      show m + 2 = (m + 1) + 1 from rfl,
      fetchAllPagesGo_step_nothing pageFetch (m + 1) (page + 1) 1 acc h1 (by omega),
      fetchAllPagesGo_step_stop pageFetch m (page + 2) 2 acc h2 (by omega)]
  · unfold fetchAllPages
    split
    · exact fetchAllPagesGo_prefix pageFetch (maxPagesToFetch initialData - 1) 2 0
        (extractRecords initialData)
    · exact List.prefix_refl _

/-- C6 witness: no pagination when `has_next_page` is absent; and a run of
three pages yielding nothing stops the loop keeping the accumulator. -/
theorem fetchAllPages_policy_witness :
    fetchAllPages ({ records := some [1, 2] } : CircleApiResponse Nat) (fun _ => none) =
      [1, 2]
    ∧ fetchAllPagesGo (fun _ => (none : Option (CircleApiResponse Nat))) 5 2 [1, 2] 0 =
      [1, 2] := by
  constructor
  · exact (fetchAllPages_policy ({ records := some [1, 2] } : CircleApiResponse Nat)
      (fun _ => none) (fun _ => none)).1 rfl
  · exact (fetchAllPages_policy ({ records := some [1, 2] } : CircleApiResponse Nat)
      (fun _ => none) (fun _ => none)).2.2.2.1 5 2 [1, 2] (by omega) rfl rfl rfl

/-! ## Endpoint resolver (`fetchCircleMembers`, circle.ts:495-623)

The parameter-set loop (circle.ts:518-547) keeps, per resource, the latest
`fetchFromEndpoint` outcome, skipping a resource once it has succeeded; a
`CircleApiException` thrown out of `fetchFromEndpoint` propagates to the
outer catch (circle.ts:604-610) which fails the whole operation.  The
resolver is modelled over two oracles giving the fetcher's outcome for the
members and invitation-links endpoint built from each parameter set. -/

/-- Per-resource resolution state: the JS `{ success: false }` initial
value, a successful `{ success: true, data }`, or the latest
`{ success: false, error }`. -/
inductive ResState where
  | pending
  | succeeded (data : String)
  | failed (e : CircleApiError)
deriving DecidableEq, Repr

/-- One `if (!result.success) result = await fetchFromEndpoint(...)` step:
a resource already succeeded is not fetched again; a thrown exception
escapes as `Except.error`. -/
def tryFetch (st : ResState) (r : FetchResult) : Except CircleApiError ResState :=
  match st with
  | .succeeded d => .ok (.succeeded d)
  | _ =>
    match r with
    | .ok d => .ok (.succeeded d)
    | .err e => .ok (.failed e)
    | .thrown e => .error e

/-- The parameter-set loop (circle.ts:518-547): members first, then
invitation links, breaking once both succeeded. -/
def resolveLoop (mOut lOut : Nat → FetchResult) :
    List Nat → ResState → ResState → Except CircleApiError (ResState × ResState)
  | [], m, l => .ok (m, l)
  | i :: rest, m, l =>
    match tryFetch m (mOut i) with
    | .error e => .error e
    | .ok m' =>
      match tryFetch l (lOut i) with
      | .error e => .error e
      | .ok l' =>
        match m', l' with
        | .succeeded dm, .succeeded dl => .ok (.succeeded dm, .succeeded dl)
        | _, _ => resolveLoop mOut lOut rest m' l'

/-- `error.type === 'INVALID_CREDENTIALS' || error.type === 'CLOUDFLARE_BLOCKED'`
(circle.ts:553). -/
def fatalError (e : CircleApiError) : Bool :=
  e = .INVALID_CREDENTIALS ∨ e = .CLOUDFLARE_BLOCKED

/-- The resolution skeleton of `fetchCircleMembers` (circle.ts:514-586) over
the three parameter sets (circle.ts:22-26): `.error e` is the whole
operation failing with `e`; `.ok (m?, l?)` is the operation proceeding with
the fetched members and invitation-links data, `none` standing for the
empty record set substituted for a failed resource.  Only the members
resource's final error is checked for fatality (circle.ts:549-562); a
failed invitation-links resource always degrades to the empty set
(circle.ts:583-586). -/
def fetchCircleMembers (mOut lOut : Nat → FetchResult) :
    Except CircleApiError (Option String × Option String) :=
  match resolveLoop mOut lOut [0, 1, 2] .pending .pending with
  | .error e => .error e
  | .ok (m, l) =>
    let lData : Option String :=
      match l with
      | .succeeded d => some d
      | _ => none
    match m with
    | .succeeded d => .ok (some d, lData)
    | .failed e => if fatalError e then .error e else .ok (none, lData)
    | .pending => .ok (none, lData)  -- unreachable: the loop always assigns on variant 0

/-- C5 counterexample: members succeed on the first parameter set while
every invitation-links variant fails with INVALID_CREDENTIALS; the claim
says the whole operation immediately returns that error, but the code
proceeds with an empty invitation-links record set and succeeds. -/
theorem fetchCircleMembers_links_fatal_counterexample :
    fetchCircleMembers (fun _ => .ok "M") (fun _ => .err .INVALID_CREDENTIALS) =
      .ok (some "M", none)
    ∧ fetchCircleMembers (fun _ => .ok "M") (fun _ => .err .INVALID_CREDENTIALS) ≠
      .error .INVALID_CREDENTIALS := by
  exact ⟨rfl, fun h => Except.noConfusion h⟩

/-- C5 (amended): a fatal classification aborts the whole operation only as
the members resource's *last* recorded failure once all three of its
variants have failed — with a non-fatal last members error the operation
proceeds with empty members; invitation-links failures, fatal ones
included, never abort and degrade to an empty record set; and an exception
thrown out of the fetcher aborts the whole operation with that error. -/
theorem fetchCircleMembers_failure_policy :
    ∀ (em el : Nat → CircleApiError) (d : String) (e : CircleApiError),
      (fetchCircleMembers (fun i => .err (em i)) (fun i => .err (el i)) =
        if fatalError (em 2) then .error (em 2) else .ok (none, none))
      ∧ fetchCircleMembers (fun _ => .ok d) (fun i => .err (el i)) = .ok (some d, none)
      ∧ fetchCircleMembers (fun _ => .thrown e) (fun i => .err (el i)) = .error e := by
  intro em el d e
  refine ⟨?_, rfl, rfl⟩
  show (if fatalError (em 2) then Except.error (em 2)
      else Except.ok (none, none) :
    Except CircleApiError (Option String × Option String)) = _
  rfl

/-- C5 amended witness: all members variants fail, the last with
CLOUDFLARE_BLOCKED: the whole operation returns that error even though the
invitation-links failures are non-fatal. -/
theorem fetchCircleMembers_failure_policy_witness :
    fetchCircleMembers
      (fun i => .err (if i = 2 then .CLOUDFLARE_BLOCKED else .NETWORK_ERROR))
      (fun _ => .err .NETWORK_ERROR) = .error .CLOUDFLARE_BLOCKED := by
  have h := (fetchCircleMembers_failure_policy
    (fun i => if i = 2 then .CLOUDFLARE_BLOCKED else .NETWORK_ERROR)
    (fun _ => .NETWORK_ERROR) "" .UNKNOWN_ERROR).1
  rw [h]
  simp [fatalError]

/-! ## Aggregator (`processBrokerStats`, circle.ts:438-490)

Raw member records are heterogeneous; the fields the aggregator consults
are modelled explicitly, with `none` for any JS-falsy value. -/

/-- JS whitespace for `trim` (the characters relevant here). -/
def isJsSpace (c : Char) : Bool :=
  c = ' ' || c = '\t' || c = '\n' || c = '\r'

/-- JS `s.trim()`. -/
def jsTrim (s : String) : String :=
  String.mk (((s.data.dropWhile isJsSpace).reverse.dropWhile isJsSpace).reverse)

/-- A nested inviter object as the aggregator reads it (circle.ts:447-455). -/
structure RawInviter where
  id : Option String := none
  name : Option String := none
  display_name : Option String := none
  first_name : Option String := none
  last_name : Option String := none
  email : Option String := none
deriving DecidableEq, Repr

/-- A raw member record, restricted to the fields `processBrokerStats`
consults (circle.ts:443-445). -/
structure RawMember where
  invited_by : Option RawInviter := none
  inviter : Option RawInviter := none
  referrer : Option RawInviter := none
  inviter_user : Option RawInviter := none
  inviter_id : Option String := none
  invited_by_id : Option String := none
  referrer_id : Option String := none
  inviter_name : Option String := none
  invited_by_name : Option String := none
  referrer_name : Option String := none
deriving DecidableEq, Repr

/-- `member.invited_by || member.inviter || member.referrer ||
member.inviter_user` (circle.ts:443). -/
def resolveInviter (m : RawMember) : Option RawInviter :=
  m.invited_by <|> m.inviter <|> m.referrer <|> m.inviter_user

/-- `member.inviter_id || member.invited_by_id || member.referrer_id`
(circle.ts:444). -/
def flatInviterId (m : RawMember) : Option String :=
  m.inviter_id <|> m.invited_by_id <|> m.referrer_id

/-- `member.inviter_name || member.invited_by_name || member.referrer_name`
(circle.ts:445). -/
def flatInviterName (m : RawMember) : Option String :=
  m.inviter_name <|> m.invited_by_name <|> m.referrer_name

/-- An empty string is JS-falsy: `s ||` skips it. -/
def nonEmptyStr (s : String) : Option String :=
  if s.data = [] then none else some s

/-- Broker display-name resolution (circle.ts:449-455): name, display name,
trimmed "first last", email, then the literal "Unknown"; the winner is
trimmed. -/
def brokerNameOf (inv : RawInviter) : String :=
  jsTrim ((inv.name <|> inv.display_name <|>
    nonEmptyStr (jsTrim ((inv.first_name.getD "") ++ " " ++ (inv.last_name.getD ""))) <|>
    inv.email).getD "Unknown")

/-- One `brokerMap` bucket: key, display name, count; the JS `Map` is an
insertion-ordered association list with unique keys. -/
abbrev BrokerBucket := String × String × Nat

/-- `brokerMap.get(id)!.count += 1` or `brokerMap.set(id, {name, count: 1})`
(circle.ts:457-461): increment in place, or append a new bucket; the name
stored first is kept. -/
def insertBroker : List BrokerBucket → String → String → List BrokerBucket
  | [], iid, nm => [(iid, nm, 1)]
  | (k, n, c) :: rest, iid, nm =>
    if k = iid then (k, n, c + 1) :: rest
    else (k, n, c) :: insertBroker rest iid nm

/-- The `else if (inviterId && inviterName)` arm (circle.ts:462-470): both
the flat id and the flat name must be truthy. -/
def addFlat (acc : List BrokerBucket) (m : RawMember) : List BrokerBucket :=
  match flatInviterId m, flatInviterName m with
  | some iid, some nm => insertBroker acc iid nm
  | _, _ => acc

/-- The fold body of `members.forEach` (circle.ts:441-471): a nested
inviter with a truthy id wins; otherwise the flat id+name pair. -/
def addMemberToBrokerMap (acc : List BrokerBucket) (m : RawMember) : List BrokerBucket :=
  match resolveInviter m with
  | some inv =>
    match inv.id with
    | some iid => insertBroker acc iid (brokerNameOf inv)
    | none => addFlat acc m
  | none => addFlat acc m

/-- The completed `brokerMap` (circle.ts:439-471). -/
def buildBrokerMap (members : List RawMember) : List BrokerBucket :=
  members.foldl addMemberToBrokerMap []

/-- `BrokerDetail` (circle.ts:474-478). -/
structure BrokerDetail where
  brokerId : String
  brokerName : String
  referredCount : Nat
deriving DecidableEq, Repr

/-- `SummaryStats` as `processBrokerStats` fills it (circle.ts:483-489).
`processInvitationLinks` is a record-wise `map` over the raw link list
(circle.ts:370-432), so `totalInvitationLinks` equals the raw list's
length; the normalized link list itself is not needed by any claim and is
omitted here. -/
structure SummaryStats where
  totalMembers : Nat
  totalBrokers : Nat
  totalInvitationLinks : Nat
  brokerDetails : List BrokerDetail
deriving DecidableEq, Repr

/-- `Array.from(brokerMap.entries()).map(...).sort((a, b) =>
b.referredCount - a.referredCount)` (circle.ts:473-479): a stable sort into
descending `referredCount` order; `List.insertionSort` with this relation
is stable, matching the ES2019 `Array.prototype.sort` guarantee. -/
def sortBrokerDetails (l : List BrokerDetail) : List BrokerDetail :=
  List.insertionSort (fun a b => b.referredCount ≤ a.referredCount) l

/-- `processBrokerStats` (circle.ts:438-490). -/
def processBrokerStats {β : Type} (members : List RawMember)
    (invitationLinks : List β) : SummaryStats :=
  let brokerMap := buildBrokerMap members
  { totalMembers := members.length
    totalBrokers := brokerMap.length
    totalInvitationLinks := invitationLinks.length
    brokerDetails :=
      sortBrokerDetails (brokerMap.map (fun kv => ⟨kv.1, kv.2.1, kv.2.2⟩)) }

/-- The broker key a member record resolves to, if any: the id under which
`addMemberToBrokerMap` would count this member. -/
def resolvedBrokerId (m : RawMember) : Option String :=
  match resolveInviter m with
  | some inv =>
    match inv.id with
    | some iid => some iid
    | none =>
      match flatInviterId m, flatInviterName m with
      | some iid, some _ => some iid
      | _, _ => none
  | none =>
    match flatInviterId m, flatInviterName m with
    | some iid, some _ => some iid
    | _, _ => none

theorem mem_keys_insertBroker (k iid nm : String) :
    ∀ acc : List BrokerBucket,
      (k ∈ (insertBroker acc iid nm).map (·.1)) ↔ (k ∈ acc.map (·.1) ∨ k = iid) := by
  intro acc
  induction acc with
  | nil => simp [insertBroker]
  | cons hd rest ih =>
    obtain ⟨a, n, c⟩ := hd
    simp only [insertBroker]
    by_cases ha : a = iid
    · rw [if_pos ha]
      subst ha
      simp only [List.map_cons, List.mem_cons]
      tauto
    · rw [if_neg ha]
      simp only [List.map_cons, List.mem_cons, ih]
      tauto

theorem nodup_keys_insertBroker (iid nm : String) :
    ∀ acc : List BrokerBucket, (acc.map (·.1)).Nodup →
      ((insertBroker acc iid nm).map (·.1)).Nodup := by
  intro acc
  induction acc with
  | nil => simp [insertBroker]
  | cons hd rest ih =>
    obtain ⟨a, n, c⟩ := hd
    intro h
    simp only [List.map_cons, List.nodup_cons] at h
    simp only [insertBroker]
    by_cases ha : a = iid
    · rw [if_pos ha]
      subst ha
      simp only [List.map_cons, List.nodup_cons]
      exact h
    · rw [if_neg ha]
      simp only [List.map_cons, List.nodup_cons]
      refine ⟨?_, ih h.2⟩
      rw [mem_keys_insertBroker]
      rintro (hmem | rfl)
      · exact h.1 hmem
      · exact ha rfl

theorem mem_keys_addMember (acc : List BrokerBucket) (m : RawMember) (k : String) :
    k ∈ (addMemberToBrokerMap acc m).map (·.1) ↔
      (k ∈ acc.map (·.1) ∨ resolvedBrokerId m = some k) := by
  rcases hinv : resolveInviter m with - | inv
  · rcases hfi : flatInviterId m with - | iid
    · simp [addMemberToBrokerMap, resolvedBrokerId, addFlat, hinv, hfi]
    · rcases hfn : flatInviterName m with - | nm
      · simp [addMemberToBrokerMap, resolvedBrokerId, addFlat, hinv, hfi, hfn]
      · rw [show addMemberToBrokerMap acc m = insertBroker acc iid nm from by
            simp [addMemberToBrokerMap, addFlat, hinv, hfi, hfn],
          mem_keys_insertBroker]
        simp [resolvedBrokerId, hinv, hfi, hfn, eq_comm]
  · rcases hid : inv.id with - | iid
    · rcases hfi : flatInviterId m with - | iid
      · simp [addMemberToBrokerMap, resolvedBrokerId, addFlat, hinv, hid, hfi]
      · rcases hfn : flatInviterName m with - | nm
        · simp [addMemberToBrokerMap, resolvedBrokerId, addFlat, hinv, hid, hfi, hfn]
        · rw [show addMemberToBrokerMap acc m = insertBroker acc iid nm from by
              simp [addMemberToBrokerMap, addFlat, hinv, hid, hfi, hfn],
            mem_keys_insertBroker]
          simp [resolvedBrokerId, hinv, hid, hfi, hfn, eq_comm]
    · rw [show addMemberToBrokerMap acc m = insertBroker acc iid (brokerNameOf inv) from by
          simp [addMemberToBrokerMap, hinv, hid],
        mem_keys_insertBroker]
      simp [resolvedBrokerId, hinv, hid, eq_comm]

theorem nodup_keys_addMember (acc : List BrokerBucket) (m : RawMember)
    (h : (acc.map (·.1)).Nodup) : ((addMemberToBrokerMap acc m).map (·.1)).Nodup := by
  rcases hinv : resolveInviter m with - | inv
  · rcases hfi : flatInviterId m with - | iid
    · simpa [addMemberToBrokerMap, addFlat, hinv, hfi] using h
    · rcases hfn : flatInviterName m with - | nm
      · simpa [addMemberToBrokerMap, addFlat, hinv, hfi, hfn] using h
      · simpa [addMemberToBrokerMap, addFlat, hinv, hfi, hfn] using
          nodup_keys_insertBroker iid nm acc h
  · rcases hid : inv.id with - | iid
    · rcases hfi : flatInviterId m with - | iid
      · simpa [addMemberToBrokerMap, addFlat, hinv, hid, hfi] using h
      · rcases hfn : flatInviterName m with - | nm
        · simpa [addMemberToBrokerMap, addFlat, hinv, hid, hfi, hfn] using h
        · simpa [addMemberToBrokerMap, addFlat, hinv, hid, hfi, hfn] using
            nodup_keys_insertBroker iid nm acc h
    · simpa [addMemberToBrokerMap, addFlat, hinv, hid] using
        nodup_keys_insertBroker iid (brokerNameOf inv) acc h

theorem mem_keys_foldl_addMember :
    ∀ (members : List RawMember) (acc : List BrokerBucket) (k : String),
      k ∈ ((members.foldl addMemberToBrokerMap acc).map (·.1)) ↔
        (k ∈ acc.map (·.1) ∨ k ∈ members.filterMap resolvedBrokerId) := by
  intro members
  induction members with
  | nil => simp
  | cons m rest ih =>
    intro acc k
    rw [List.foldl_cons, ih, mem_keys_addMember]
    cases hres : resolvedBrokerId m with
    | none => simp [List.filterMap_cons, hres]
    | some iid =>
      simp only [List.filterMap_cons, hres, List.mem_cons, Option.some.injEq]
      tauto

theorem nodup_keys_foldl_addMember :
    ∀ (members : List RawMember) (acc : List BrokerBucket),
      (acc.map (·.1)).Nodup → ((members.foldl addMemberToBrokerMap acc).map (·.1)).Nodup := by
  intro members
  induction members with
  | nil => intro acc h; simpa using h
  | cons m rest ih =>
    intro acc h
    rw [List.foldl_cons]
    exact ih _ (nodup_keys_addMember acc m h)

/-- C7: the aggregator's `totalMembers` is the length of the input member
list; `totalBrokers` is the number of distinct resolved inviter (broker)
ids; `brokerDetails` is sorted by `referredCount` descending; and a member
list with inviter ids distributed as A:3, B:1, none:2 yields
totalMembers 6, totalBrokers 2 and brokerDetails [(A,3), (B,1)]. -/
theorem processBrokerStats_spec {β : Type} :
    ∀ (members : List RawMember) (invitationLinks : List β),
      (processBrokerStats members invitationLinks).totalMembers = members.length
      ∧ (processBrokerStats members invitationLinks).totalBrokers =
          (members.filterMap resolvedBrokerId).toFinset.card
      ∧ (processBrokerStats members invitationLinks).brokerDetails.Pairwise
          (fun a b => b.referredCount ≤ a.referredCount)
      ∧ processBrokerStats
          [{ invited_by := some { id := some "A", name := some "A" } },
           { invited_by := some { id := some "A", name := some "A" } },
           { invited_by := some { id := some "A", name := some "A" } },
           { invited_by := some { id := some "B", name := some "B" } },
           {}, {}] ([] : List Unit) =
        { totalMembers := 6, totalBrokers := 2, totalInvitationLinks := 0,
          brokerDetails := [⟨"A", "A", 3⟩, ⟨"B", "B", 1⟩] } := by
  intro members invitationLinks
  refine ⟨rfl, ?_, ?_, by decide⟩
  · have hnodup : ((buildBrokerMap members).map (·.1)).Nodup :=
      nodup_keys_foldl_addMember members [] (by simp)
    calc (processBrokerStats members invitationLinks).totalBrokers
        = ((buildBrokerMap members).map (·.1)).length := by
          show (buildBrokerMap members).length = _
          rw [List.length_map]
      _ = ((buildBrokerMap members).map (·.1)).toFinset.card :=
          (List.toFinset_card_of_nodup hnodup).symm
      _ = (members.filterMap resolvedBrokerId).toFinset.card := by
          congr 1
          ext k
          simp only [List.mem_toFinset]
          simpa using mem_keys_foldl_addMember members [] k
  · haveI : IsTotal BrokerDetail (fun a b => b.referredCount ≤ a.referredCount) :=
      ⟨fun a b => Nat.le_total b.referredCount a.referredCount⟩
    haveI : IsTrans BrokerDetail (fun a b => b.referredCount ≤ a.referredCount) :=
      ⟨fun _ _ _ hab hbc => Nat.le_trans hbc hab⟩
    exact List.sorted_insertionSort _ _

/-! ## Cache layer (`CacheManager`, lib/cache-manager.ts)

The singleton's `Map` is modelled as an association list with unique keys;
`Date.now()` becomes an explicit `now : Nat` argument; each operation
returns its value together with the successor state. -/

/-- `CacheEntry` (cache-manager.ts:4-10), restricted to the fields the
claims consult. -/
structure CacheEntry (α : Type) where
  data : α
  timestamp : Nat
  expiresAt : Nat
deriving DecidableEq, Repr

/-- The cache `Map` contents. -/
abbrev CacheState (α : Type) := List (String × CacheEntry α)

/-- `DEFAULT_TTL = 5 * 60 * 1000` (cache-manager.ts:22). -/
def DEFAULT_TTL : Nat := 5 * 60 * 1000

/-- `MAX_AGE = 30 * 60 * 1000` (cache-manager.ts:23). -/
def MAX_AGE : Nat := 30 * 60 * 1000

/-- `this.cache.get(key)`. -/
def lookupEntry {α : Type} (s : CacheState α) (key : String) : Option (CacheEntry α) :=
  (s.find? (fun kv => kv.1 == key)).map (·.2)

/-- `this.cache.delete(key)`. -/
def eraseKey {α : Type} (s : CacheState α) (key : String) : CacheState α :=
  s.filter (fun kv => !(kv.1 == key))

/-- `CacheManager.set` (cache-manager.ts:40-56): `options.ttl ||
DEFAULT_TTL` (a zero or absent ttl is falsy), `expiresAt = now + ttl`.
A `Map` keeps keys unique, so the key's old entry, if any, is replaced. -/
def cacheSet {α : Type} (s : CacheState α) (now : Nat) (key : String) (v : α)
    (ttlOpt : Option Nat) : CacheState α :=
  let ttl := match ttlOpt with
    | some t => if t = 0 then DEFAULT_TTL else t
    | none => DEFAULT_TTL
  eraseKey s key ++ [(key, ⟨v, now, now + ttl⟩)]

/-- `CacheManager.get` (cache-manager.ts:59-79): `null` on a miss; an entry
with `now > expiresAt` is deleted and `null` returned; otherwise the data. -/
def cacheGet {α : Type} (s : CacheState α) (now : Nat) (key : String) :
    Option α × CacheState α :=
  match lookupEntry s key with
  | none => (none, s)
  | some e =>
    if e.expiresAt < now then (none, eraseKey s key)
    else (some e.data, s)

/-- `CacheManager.getStale` (cache-manager.ts:118-145): a still-fresh entry
is returned normally; a stale one is returned while `age ≤ MAX_AGE` and
purged (with `null` returned) once `age > MAX_AGE`. -/
def getStale {α : Type} (s : CacheState α) (now : Nat) (key : String) :
    Option α × CacheState α :=
  match lookupEntry s key with
  | none => (none, s)
  | some e =>
    if now ≤ e.expiresAt then (some e.data, s)
    else if MAX_AGE < now - e.timestamp then (none, eraseKey s key)
    else (some e.data, s)

theorem lookupEntry_eraseKey {α : Type} (key : String) :
    ∀ s : CacheState α, lookupEntry (eraseKey s key) key = none := by
  intro s
  induction s with
  | nil => rfl
  | cons kv rest ih =>
    by_cases hk : kv.1 = key
    · simp [eraseKey, lookupEntry, hk]
    · simp [eraseKey, lookupEntry, hk]

theorem lookupEntry_cacheSet_self {α : Type} (s : CacheState α) (now : Nat)
    (key : String) (v : α) (ttlOpt : Option Nat) :
    lookupEntry (cacheSet s now key v ttlOpt) key =
      some ⟨v, now, now + (match ttlOpt with
        | some t => if t = 0 then DEFAULT_TTL else t
        | none => DEFAULT_TTL)⟩ := by
  unfold cacheSet lookupEntry
  rw [List.find?_append]
  have herase : (eraseKey s key).find? (fun kv => kv.1 == key) = none := by
    have := lookupEntry_eraseKey key s
    unfold lookupEntry at this
    exact Option.map_eq_none.mp this
  rw [herase]
  simp

/-- C8 counterexample: an entry stored with the 24-hour manual-data TTL and
read by `getStale` at age 31 minutes — past the 30-minute MAX_AGE — is
still returned, because the max-age check sits only on the stale branch and
this entry is still within its own `expiresAt`. -/
theorem getStale_max_age_counterexample :
    (getStale (cacheSet ([] : CacheState Nat) 0 "circle-manual-data" 42
        (some (24 * 60 * 60 * 1000))) (31 * 60 * 1000) "circle-manual-data").1 =
      some 42
    ∧ MAX_AGE < 31 * 60 * 1000 - 0 := by
  constructor
  · rfl
  · decide

/-- C8 (amended): for every entry whose expiry window is at most MAX_AGE —
in particular everything stored with the default 5-minute TTL — `getStale`
never returns data older than MAX_AGE, for every key and read time; and any
entry past its `expiresAt` whose age exceeds MAX_AGE is purged, with null
returned.  (An entry whose TTL exceeds MAX_AGE, such as the 24-hour
manual-data TTL, is still returned by `getStale` while within its own
`expiresAt`, however old.) -/
theorem getStale_max_age :
    ∀ {α : Type} (s : CacheState α) (key : String) (e : CacheEntry α) (now : Nat),
      lookupEntry s key = some e →
      ((e.expiresAt ≤ e.timestamp + MAX_AGE →
        ∀ d, (getStale s now key).1 = some d → now - e.timestamp ≤ MAX_AGE)
      ∧ (e.expiresAt < now → MAX_AGE < now - e.timestamp →
          (getStale s now key).1 = none
          ∧ lookupEntry (getStale s now key).2 key = none)) := by
  intro α s key e now hlook
  constructor
  · intro httl d hsome
    unfold getStale at hsome
    rw [hlook] at hsome
    dsimp only at hsome
    by_cases hfresh : now ≤ e.expiresAt
    · omega
    · by_cases hage : MAX_AGE < now - e.timestamp
      · rw [if_neg hfresh, if_pos hage] at hsome
        exact absurd hsome (by simp)
      · omega
  · intro hexp hage
    unfold getStale
    rw [hlook]
    dsimp only
    rw [if_neg (show ¬ now ≤ e.expiresAt from by omega), if_pos hage]
    exact ⟨rfl, lookupEntry_eraseKey key s⟩

/-- C8 amended witness: a default-TTL entry written at time 0 and read at
`MAX_AGE + DEFAULT_TTL + 1` is purged and null is returned. -/
theorem getStale_max_age_witness :
    (getStale (cacheSet ([] : CacheState Nat) 0 "circle-members" 7 none)
        (MAX_AGE + DEFAULT_TTL + 1) "circle-members").1 = none
    ∧ lookupEntry
        (getStale (cacheSet ([] : CacheState Nat) 0 "circle-members" 7 none)
          (MAX_AGE + DEFAULT_TTL + 1) "circle-members").2 "circle-members" = none := by
  exact (getStale_max_age
      (cacheSet ([] : CacheState Nat) 0 "circle-members" 7 none) "circle-members"
      ⟨7, 0, DEFAULT_TTL⟩ (MAX_AGE + DEFAULT_TTL + 1)
      (by rw [lookupEntry_cacheSet_self]; rfl)).2
    (by decide) (by decide)

theorem lookupEntry_single_self {α : Type} (key : String) (e : CacheEntry α) :
    lookupEntry [(key, e)] key = some e := by
  simp [lookupEntry]

theorem eraseKey_single_self {α : Type} (key : String) (e : CacheEntry α) :
    eraseKey [(key, e)] key = [] := by
  simp [eraseKey]

/-- C9 counterexample: after `set(k, v, ttl=100ms)` and a 150ms wait,
`get(k)` returns null but also PURGES the expired entry, so the claim's
subsequent `getStale(k)` runs on a cache without the key and returns null,
not v. -/
theorem cacheGet_then_getStale_counterexample :
    cacheGet (cacheSet ([] : CacheState Nat) 0 "k" 7 (some 100)) 150 "k" = (none, [])
    ∧ getStale ([] : CacheState Nat) 150 "k" = (none, [])
    ∧ (none : Option Nat) ≠ some 7 := by
  refine ⟨by decide, rfl, by simp⟩

/-- C9 (amended): after `set(key, v, ttl=100ms)`: a `get` at 150ms returns
null and purges the entry (so a `getStale` after that `get` returns null);
a `getStale` at 150ms performed on the un-purged cache, still within the
max-age window, returns v and leaves the entry; once the max-age has
elapsed, `getStale` returns null and purges the entry; and in general `get`
returns null exactly when the key is absent or the entry is past its
`expiresAt`. -/
theorem cache_expiry_behavior :
    ∀ {α : Type} (key : String) (v : α),
      cacheGet (cacheSet ([] : CacheState α) 0 key v (some 100)) 150 key = (none, [])
      ∧ getStale (cacheSet ([] : CacheState α) 0 key v (some 100)) 150 key =
          (some v, cacheSet ([] : CacheState α) 0 key v (some 100))
      ∧ (∀ now, MAX_AGE < now →
          getStale (cacheSet ([] : CacheState α) 0 key v (some 100)) now key =
            (none, []))
      ∧ (∀ (s : CacheState α) (now : Nat),
          (cacheGet s now key).1 = none ↔
            (lookupEntry s key = none ∨
              ∃ e, lookupEntry s key = some e ∧ e.expiresAt < now)) := by
  intro α key v
  have hset : cacheSet ([] : CacheState α) 0 key v (some 100) =
      [(key, ⟨v, 0, 100⟩)] := rfl
  refine ⟨?_, ?_, ?_, ?_⟩
  · rw [hset]
    unfold cacheGet
    rw [lookupEntry_single_self]
    dsimp only
    rw [if_pos (by decide : (100 : Nat) < 150), eraseKey_single_self]
  · rw [hset]
    unfold getStale
    rw [lookupEntry_single_self]
    dsimp only
    rw [if_neg (by decide : ¬ (150 : Nat) ≤ 100),
      if_neg (by decide : ¬ MAX_AGE < 150 - 0)]
  · intro now hnow
    rw [hset]
    unfold getStale
    rw [lookupEntry_single_self]
    dsimp only
    have h100 : (100 : Nat) < MAX_AGE := by decide
    rw [if_neg (show ¬ now ≤ 100 from by omega),
      if_pos (show MAX_AGE < now - 0 from by omega), eraseKey_single_self]
  · intro s now
    cases hl : lookupEntry s key with
    | none => simp [cacheGet, hl]
    | some e =>
      by_cases hexp : e.expiresAt < now
      · simp [cacheGet, hl, hexp]
      · simp [cacheGet, hl, hexp]

/-- C9 amended witness: the max-age-elapsed branch at the concrete read
time `MAX_AGE + 1`. -/
theorem cache_expiry_behavior_witness :
    getStale (cacheSet ([] : CacheState Nat) 0 "k" 7 (some 100)) (MAX_AGE + 1) "k" =
      (none, []) := by
  exact (cache_expiry_behavior "k" 7).2.2.1 (MAX_AGE + 1) (by omega)

end Circle
